import Mathlib

/-!
Verification development for the Nimbie disc-duplicator control stack
(`src/nimbie/driver.py`, `src/nimbie/pure_state_machine.py`,
`src/nimbie/state_machine.py`).

Python strings are modelled as `List Char`; Python dict-shaped hardware
snapshots as the structure `HWState`; fallible driver calls as `Option`
values chosen by an environment record (the value `some f` means the call
raised the fault `f`, `none` means it returned normally).  Real time is
abstracted away: a bounded poll is modelled by its observable outcome
(condition met, timed out, or the condition itself raised).
-/

namespace Nimbie

/-- Hardware snapshot returned by `NimbieDriver.get_state`
(`driver.py:393-436`): four independent booleans. -/
structure HWState where
  disk_available : Bool
  disk_in_open_tray : Bool
  disk_lifted : Bool
  tray_out : Bool
deriving DecidableEq, Repr

/-- The all-false snapshot that `get_state` returns when no valid state
token is found in the response (`driver.py:429-436`). -/
def allFalseState : HWState :=
  { disk_available := false, disk_in_open_tray := false,
    disk_lifted := false, tray_out := false }

/-- Fault taxonomy of `driver.py:65-103`: the exception classes raised by
`decode_statuscode`.  `UnknownErrorE09` stands for the bare
`HardwareStateError("Unknown error E09")` raised for code E09. -/
inductive FaultK where
  | DiskInTrayError
  | NoDiskError
  | TrayInvalidStateError
  | DropperError
  | NoDiskInTrayError
  | UnknownErrorE09
deriving DecidableEq, Repr

/-- Exception message attached to each fault at its construction site in
`decode_statuscode` (`driver.py:308-329`).  The `DropperError` message is
reproduced with the two contractions expanded (source: "maybe it's missing
a disk. Maybe you're attempting ..."); the expansion does not affect any
substring test performed by the state machine. -/
def faultMsg : FaultK → List Char
  | .DiskInTrayError => "The tray already has a disk".toList
  | .NoDiskError => "No disk in disk queue".toList
  | .TrayInvalidStateError => "The tray is in the opposite state it should be in".toList
  | .DropperError =>
      "The dropper has an error (maybe it is missing a disk. Maybe you are attempting to place a disk on it while it is still up).".toList
  | .NoDiskInTrayError => "The tray has no disk in it".toList
  | .UnknownErrorE09 => "Unknown error E09".toList

/-- Python `str.lower` on a fault message. -/
def lowerChars (s : List Char) : List Char := s.map Char.toLower

/-- Python substring test `pat in s` on character lists. -/
def containsSub (pat : List Char) : List Char → Bool
  | [] => pat.isEmpty
  | c :: rest => pat.isPrefixOf (c :: rest) || containsSub pat rest

/-- Test used at `pure_state_machine.py:496`: `"opposite state" in str(e).lower()`. -/
def msgHasOppositeState (f : FaultK) : Bool :=
  containsSub ("opposite state".toList) (lowerChars (faultMsg f))

/-- Test used at `pure_state_machine.py:526`: `"no disk" in str(e2).lower()`. -/
def msgHasNoDisk (f : FaultK) : Bool :=
  containsSub ("no disk".toList) (lowerChars (faultMsg f))

/-- Result of `decode_statuscode`: an exception value (`err`) or a
descriptive success string (`info`). -/
inductive DecodeRes where
  | err (f : FaultK)
  | info (msg : List Char)
deriving DecidableEq, Repr

/-- Boolean test for the informational branch of `DecodeRes`. -/
def DecodeRes.isInfo : DecodeRes → Bool
  | .err _ => false
  | .info _ => true

/-- Status-code table of `decode_statuscode` (`driver.py:308-331`), applied
to the code with its "AT+" prefix already stripped. -/
def decode_code (code : List Char) : DecodeRes :=
  if code = "S12".toList then .err .DiskInTrayError
  else if code = "S14".toList then .err .NoDiskError
  else if code = "S10".toList then .err .TrayInvalidStateError
  else if code = "S03".toList then .err .DropperError
  else if code = "S00".toList then .err .NoDiskInTrayError
  else if code = "O".toList then .info "Dropper success (lifting or dropping)".toList
  else if code = "S07".toList then .info "Successfully placed disk on tray".toList
  else if code = "E09".toList then .err .UnknownErrorE09
  else .info ("Unknown status code: ".toList ++ code)

/-- `NimbieDriver.decode_statuscode` (`driver.py:293-331`): strips the
three-character "AT+" prefix when the code is longer than three characters,
then matches against the status-code table. -/
def decode_statuscode (statuscode : List Char) : DecodeRes :=
  decode_code (if 3 < statuscode.length then statuscode.drop 3 else statuscode)

/-- The six status codes of the fault table (the codes for which
`decode_statuscode` returns an exception). -/
def faultCodes : List (List Char) :=
  ["S12".toList, "S14".toList, "S10".toList, "S03".toList, "S00".toList, "E09".toList]

/-- Left brace character (spelled by code point). -/
def braceL : Char := Char.ofNat 123

/-- Right brace character (spelled by code point). -/
def braceR : Char := Char.ofNat 125

/-- One USB response frame as seen by `get_state`: either a decoded
null-terminated ASCII string or a raw byte array (`driver.py:281-291`). -/
inductive Msg where
  | strMsg (s : List Char)
  | rawMsg (b : List Nat)
deriving DecidableEq, Repr

/-- The scan condition of `driver.py:412`: the message is a string that
starts with a left brace and ends with a right brace. -/
def isBraceDelim : Msg → Bool
  | .strMsg s => s.head? = some braceL && s.getLast? = some braceR
  | .rawMsg _ => false

/-- Contents between the braces, Python `msg[1:-1]`. -/
def braceInside : Msg → List Char
  | .strMsg s => (s.drop 1).dropLast
  | .rawMsg _ => []

/-- The loop of `driver.py:410-414`: the first brace-delimited string
message of the response, stripped of its braces. -/
def findStateStr : List Msg → Option (List Char)
  | [] => none
  | m :: rest => if isBraceDelim m then some (braceInside m) else findStateStr rest

/-- State-bit positions confirmed through hardware testing
(`driver.py:51-55`). -/
def STATE_BIT_DISK_AVAILABLE : Nat := 1
/-- Position of the disk-in-open-tray bit. -/
def STATE_BIT_DISK_IN_OPEN_TRAY : Nat := 3
/-- Position of the disk-lifted bit. -/
def STATE_BIT_DISK_LIFTED : Nat := 4
/-- Position of the tray-out bit. -/
def STATE_BIT_TRAY_OUT : Nat := 5

/-- Parsing part of `NimbieDriver.get_state` (`driver.py:403-436`): find the
first brace-delimited token; if it has at least 7 characters inside, read
the four fixed bit positions, otherwise return the all-false snapshot. -/
def get_state_parse (response : List Msg) : HWState :=
  match findStateStr response with
  | some s =>
      if 7 ≤ s.length then
        { disk_available := s.getD STATE_BIT_DISK_AVAILABLE ' ' = '1',
          disk_in_open_tray := s.getD STATE_BIT_DISK_IN_OPEN_TRAY ' ' = '1',
          disk_lifted := s.getD STATE_BIT_DISK_LIFTED ' ' = '1',
          tray_out := s.getD STATE_BIT_TRAY_OUT ' ' = '1' }
      else allFalseState
  | none => allFalseState

/-- A valid state token in the sense of the spec: a brace-delimited string
message with at least 7 characters inside. -/
def isValidStateToken (m : Msg) : Bool :=
  isBraceDelim m && 7 ≤ (braceInside m).length

/-- Outcome of one evaluation of a polling predicate: it returned a
boolean, or it raised an exception. -/
inductive PollOutcome where
  | ok (b : Bool)
  | exn
deriving DecidableEq, Repr

/-- `NimbieStateMachine._poll_until` (`state_machine.py:658-695`), with real
time abstracted to a fuel argument: `fuel` is the number of predicate
evaluations the timeout allows and `i` the index of the next evaluation.
A raising predicate is logged and polling continues; the timeout check only
happens after an evaluation, so `false` is returned only once all `fuel`
evaluations are spent without the predicate returning `True`. -/
def poll_until (cond : Nat → PollOutcome) : Nat → Nat → Bool
  | 0, _ => false
  | fuel + 1, i =>
    match cond i with
    | .ok true => true
    | _ => poll_until cond fuel (i + 1)

/-- `NimbiePureStateMachine._wait_for_condition`
(`pure_state_machine.py:692-721`), same fuel abstraction.  Unlike
`poll_until`, its `except` clause executes `return False`, so the first
raising evaluation ends the wait immediately. -/
def wait_for_condition (cond : Nat → PollOutcome) : Nat → Nat → Bool
  | 0, _ => false
  | fuel + 1, i =>
    match cond i with
    | .ok true => true
    | .ok false => wait_for_condition cond fuel (i + 1)
    | .exn => false

/-- Children of the composite `initializing` state
(`pure_state_machine.py:20-33`). -/
inductive InitSub where
  | checking_hardware
  | clearing_lifted_disk
  | checking_tray_state
  | clearing_open_tray
  | closing_empty_tray
  | checking_closed_drive
  | initialization_complete
deriving DecidableEq, Repr

/-- Children of the composite `loading` state (`pure_state_machine.py:35-46`). -/
inductive LoadSub where
  | opening_tray
  | waiting_tray_open
  | placing_disk
  | waiting_disk_placed
  | closing_tray
  | waiting_tray_closed
deriving DecidableEq, Repr

/-- Children of the composite `unloading` state (`pure_state_machine.py:48-61`). -/
inductive UnloadSub where
  | opening_tray
  | waiting_tray_open
  | lifting_disk
  | waiting_disk_lifted
  | closing_tray
  | waiting_tray_closed
  | dropping_disk
  | final_ready
deriving DecidableEq, Repr

/-- Workflow state of `NimbiePureStateMachine` (`pure_state_machine.py:20-63`). -/
inductive WS where
  | initializing (sub : InitSub)
  | ready
  | loading (sub : LoadSub)
  | processing
  | unloading (sub : UnloadSub)
  | error
deriving DecidableEq, Repr

/-- One hardware command issued through the driver (tray motion, placing,
lifting or dropping a disc).  State queries (`get_state`) are observations,
not commands, and are not recorded here. -/
inductive Cmd where
  | openTray
  | closeTray
  | placeDisk
  | liftDisk
  | acceptDisk
  | rejectDisk
deriving DecidableEq, Repr

/-- Which condition a `_wait_for_condition` call polls. -/
inductive PollKind where
  | trayOpenP
  | trayClosedP
  | diskPlacedP
  | diskLiftedP
deriving DecidableEq, Repr

/-- Observable outcome of one bounded `_wait_for_condition` call: the
condition was met, the timeout elapsed with the condition last seen false,
or the condition function raised (in which case `_wait_for_condition`
returns `False` at once, `pure_state_machine.py:717-719`). -/
inductive PollR where
  | met
  | timedOut
  | exnStop
deriving DecidableEq, Repr

/-- One entry of the hardware-interaction trace. -/
inductive Evt where
  | cmd (c : Cmd)
  | polled (k : PollKind) (r : PollR)
deriving DecidableEq, Repr

/-- Result of invoking a trigger-driven operation on the pure machine:
`ret` is the value returned to the caller (`none` when an exception
propagated out of the call), `ws` the workflow state afterwards, `evs` the
hardware commands and polls performed. -/
structure TrigOut where
  ret : Option Bool
  ws : WS
  evs : List Evt
deriving DecidableEq, Repr

/-- Environment of one `load_disk` run: the result of the
`_can_load_disk` condition, whether each driver command raises, and the
outcome of each bounded poll. -/
structure LoadEnv where
  availCond : Bool
  otRaise : Bool
  pOpen : PollR
  placeRes : Option FaultK
  pPlaced : PollR
  ctRaise : Bool
  pClosed : PollR
deriving DecidableEq, Repr

/-- The `load_disk` trigger of `NimbiePureStateMachine`
(`pure_state_machine.py:221-280` with callbacks at 604-690): from `ready`,
guarded by `_can_load_disk`; opens the tray, polls `tray_out`, places the
disc, polls `disk_in_open_tray`, closes the tray, polls `not tray_out`,
then enters `processing`.  A failed poll triggers `to_error`; an exception
from a driver command propagates, leaving the machine in the sub-state
whose `on_enter` callback raised (the trigger then returns no value).
Invalid source states are ignored (`ignore_invalid_triggers=True`),
returning `False` without side effects. -/
def load_disk_trigger (s : WS) (e : LoadEnv) : TrigOut :=
  if s = .ready then
    if e.availCond then
      if e.otRaise then ⟨none, .loading .opening_tray, [.cmd .openTray]⟩
      else
        match e.pOpen with
        | .met =>
          match e.placeRes with
          | some _ =>
              ⟨none, .loading .placing_disk,
                [.cmd .openTray, .polled .trayOpenP .met, .cmd .placeDisk]⟩
          | none =>
            match e.pPlaced with
            | .met =>
              if e.ctRaise then
                ⟨none, .loading .closing_tray,
                  [.cmd .openTray, .polled .trayOpenP .met, .cmd .placeDisk,
                   .polled .diskPlacedP .met, .cmd .closeTray]⟩
              else
                match e.pClosed with
                | .met =>
                    ⟨some true, .processing,
                      [.cmd .openTray, .polled .trayOpenP .met, .cmd .placeDisk,
                       .polled .diskPlacedP .met, .cmd .closeTray,
                       .polled .trayClosedP .met]⟩
                | r =>
                    ⟨some true, .error,
                      [.cmd .openTray, .polled .trayOpenP .met, .cmd .placeDisk,
                       .polled .diskPlacedP .met, .cmd .closeTray,
                       .polled .trayClosedP r]⟩
            | r =>
                ⟨some true, .error,
                  [.cmd .openTray, .polled .trayOpenP .met, .cmd .placeDisk,
                   .polled .diskPlacedP r]⟩
        | r => ⟨some true, .error, [.cmd .openTray, .polled .trayOpenP r]⟩
    else ⟨some false, .ready, []⟩
  else ⟨some false, s, []⟩

/-- `NimbiePureStateMachine.load_next_disk` (`pure_state_machine.py:745-765`):
guard on the `ready` state, then on `disk_available` (field `availPre`),
then fire `load_disk` and report success only if the machine ended in
`processing`. -/
def load_next_disk (s : WS) (availPre : Bool) (e : LoadEnv) : TrigOut :=
  if s ≠ .ready then ⟨some false, s, []⟩
  else if ¬ availPre then ⟨some false, s, []⟩
  else
    let t := load_disk_trigger s e
    match t.ret with
    | none => ⟨none, t.ws, t.evs⟩
    | some r => ⟨some (r && decide (t.ws = .processing)), t.ws, t.evs⟩

/-- Environment of one `accept_disk`/`reject_disk` run. -/
structure UnloadEnv where
  otRaise : Bool
  pOpen : PollR
  liftRes : Option FaultK
  pLifted : PollR
  ctRaise : Bool
  pClosed : PollR
  dropRes : Option FaultK
deriving DecidableEq, Repr

/-- The `accept_disk`/`reject_disk` triggers (`pure_state_machine.py:282-296`
with unloading callbacks at 803-885): from `processing`, with the
accept/reject intent stored in `accept_mode` before the transition; opens
the tray, polls `tray_out`, lifts the disc, polls `disk_lifted`, closes the
tray, polls `not tray_out`, drops the disc per the stored intent, then
returns to `ready`.  Failed polls trigger `to_error`; raising commands
leave the machine stuck in the raising sub-state. -/
def unload_trigger (s : WS) (acceptMode : Bool) (e : UnloadEnv) : TrigOut :=
  if s = .processing then
    if e.otRaise then ⟨none, .unloading .opening_tray, [.cmd .openTray]⟩
    else
      match e.pOpen with
      | .met =>
        match e.liftRes with
        | some _ =>
            ⟨none, .unloading .lifting_disk,
              [.cmd .openTray, .polled .trayOpenP .met, .cmd .liftDisk]⟩
        | none =>
          match e.pLifted with
          | .met =>
            if e.ctRaise then
              ⟨none, .unloading .closing_tray,
                [.cmd .openTray, .polled .trayOpenP .met, .cmd .liftDisk,
                 .polled .diskLiftedP .met, .cmd .closeTray]⟩
            else
              match e.pClosed with
              | .met =>
                match e.dropRes with
                | some _ =>
                    ⟨none, .unloading .dropping_disk,
                      [.cmd .openTray, .polled .trayOpenP .met, .cmd .liftDisk,
                       .polled .diskLiftedP .met, .cmd .closeTray,
                       .polled .trayClosedP .met,
                       .cmd (if acceptMode then .acceptDisk else .rejectDisk)]⟩
                | none =>
                    ⟨some true, .ready,
                      [.cmd .openTray, .polled .trayOpenP .met, .cmd .liftDisk,
                       .polled .diskLiftedP .met, .cmd .closeTray,
                       .polled .trayClosedP .met,
                       .cmd (if acceptMode then .acceptDisk else .rejectDisk)]⟩
              | r =>
                  ⟨some true, .error,
                    [.cmd .openTray, .polled .trayOpenP .met, .cmd .liftDisk,
                     .polled .diskLiftedP .met, .cmd .closeTray,
                     .polled .trayClosedP r]⟩
          | r =>
              ⟨some true, .error,
                [.cmd .openTray, .polled .trayOpenP .met, .cmd .liftDisk,
                 .polled .diskLiftedP r]⟩
      | r => ⟨some true, .error, [.cmd .openTray, .polled .trayOpenP r]⟩
  else ⟨some false, s, []⟩

/-- `NimbiePureStateMachine.accept_current_disk`
(`pure_state_machine.py:767-783`): guard on `processing`, fire
`accept_disk`, succeed only when the machine ended back in `ready`. -/
def accept_current_disk (s : WS) (e : UnloadEnv) : TrigOut :=
  if s ≠ .processing then ⟨some false, s, []⟩
  else
    let t := unload_trigger s true e
    match t.ret with
    | none => ⟨none, t.ws, t.evs⟩
    | some r => ⟨some (r && decide (t.ws = .ready)), t.ws, t.evs⟩

/-- `NimbiePureStateMachine.reject_current_disk`
(`pure_state_machine.py:785-801`). -/
def reject_current_disk (s : WS) (e : UnloadEnv) : TrigOut :=
  if s ≠ .processing then ⟨some false, s, []⟩
  else
    let t := unload_trigger s false e
    match t.ret with
    | none => ⟨none, t.ws, t.evs⟩
    | some r => ⟨some (r && decide (t.ws = .ready)), t.ws, t.evs⟩

/-- The `recover` trigger (`pure_state_machine.py:364-371` and 561-572):
valid only from `error`; its `before` callback `_check_hardware_recovery`
re-probes the hardware (`probe` is the result of that `get_state` call,
`none` when it raised).  On a successful probe the machine moves to
`ready`; when the probe raises, the callback fires `to_error` and
re-raises, so the machine stays in `error` and the exception propagates.
From any other state the trigger is ignored (`ignore_invalid_triggers`) and
returns `False` with no hardware interaction. -/
def recover_trigger (s : WS) (probe : Option HWState) : TrigOut :=
  if s = .error then
    match probe with
    | some _ => ⟨some true, .ready, []⟩
    | none => ⟨none, .error, []⟩
  else ⟨some false, s, []⟩

/-- Environment of one run of the `initialize` trigger.  `gs0`/`gs1` are
the two `get_state` reads (`none` = the read raised); fields named `ct*`,
`ot*` say whether the corresponding tray command raised; `rd*`/`lift*`
give the fault raised by the corresponding `reject_disk`/`lift_disk` call
(`none` = success); `p*` are bounded-poll outcomes.  Unused fields are
simply never consulted on a given path. -/
structure InitEnv where
  gs0 : Option HWState
  ctA : Bool
  rdA : Option FaultK
  gs1 : Option HWState
  liftB : Option FaultK
  ctB : Bool
  pB : PollR
  rdB : Option FaultK
  ctC : Bool
  pC : PollR
  liftC : Option FaultK
  rdC : Option FaultK
  ctD : Bool
  pD : PollR
  liftE : Option FaultK
  rdE : Option FaultK
  otF : Bool
  pF : PollR
  liftF : Option FaultK
  ctF : Bool
  pG : PollR
  rdF : Option FaultK
  ctG : Bool
  pH : PollR
deriving DecidableEq, Repr

/-- Result of one initialization phase.  `ok` means the phase fired its
completion trigger; otherwise the run stops in `error`, with `raised` true
when the stop was an exception propagating up to `_check_hardware`
(which fires `to_error` and re-raises) rather than an explicit
`to_error` call.  `trayOut` is the tray position as last observed by a
`get_state` read or a tray poll; `reclose` is set by
`checking_closed_drive` when the final empty-tray re-close poll
(whose result the code discards, `pure_state_machine.py:531-535`) did not
confirm the tray closed. -/
structure PhOut where
  ok : Bool
  raised : Bool
  trayOut : Bool
  reclose : Bool
  evs : List Evt
deriving DecidableEq, Repr

/-- `_on_enter_clearing_lifted_disk` (`pure_state_machine.py:388-404`): if
the startup snapshot shows a lifted disc, close the tray first when it is
out (with a fixed sleep, no poll, hence no new tray observation), then
reject-drop.  Exceptions propagate. -/
def clearing_lifted_disk (h0 : HWState) (e : InitEnv) : PhOut :=
  if h0.disk_lifted then
    if h0.tray_out then
      if e.ctA then ⟨false, true, h0.tray_out, false, [.cmd .closeTray]⟩
      else
        match e.rdA with
        | some _ => ⟨false, true, h0.tray_out, false, [.cmd .closeTray, .cmd .rejectDisk]⟩
        | none => ⟨true, false, h0.tray_out, false, [.cmd .closeTray, .cmd .rejectDisk]⟩
    else
      match e.rdA with
      | some _ => ⟨false, true, h0.tray_out, false, [.cmd .rejectDisk]⟩
      | none => ⟨true, false, h0.tray_out, false, [.cmd .rejectDisk]⟩
  else ⟨true, false, h0.tray_out, false, []⟩

/-- The `except` branch of `_on_enter_clearing_open_tray`
(`pure_state_machine.py:439-464`), entered when the first lift, the close
after it, or the reject after the close raised: close the tray with the
disc still in it, wait for it to close, then retry the lift and reject.
Poll failures call `to_error`; exceptions from the retried lift or reject
are caught and also end in `to_error`; an exception from the close itself
propagates. -/
def cot_alt (tray : Bool) (e : InitEnv) (evs : List Evt) : PhOut :=
  if e.ctC then ⟨false, true, tray, false, evs ++ [.cmd .closeTray]⟩
  else
    match e.pC with
    | .met =>
      match e.liftC with
      | some _ =>
          ⟨false, false, false, false,
            evs ++ [.cmd .closeTray, .polled .trayClosedP .met, .cmd .liftDisk]⟩
      | none =>
        match e.rdC with
        | some _ =>
            ⟨false, false, false, false,
              evs ++ [.cmd .closeTray, .polled .trayClosedP .met, .cmd .liftDisk,
                .cmd .rejectDisk]⟩
        | none =>
            ⟨true, false, false, false,
              evs ++ [.cmd .closeTray, .polled .trayClosedP .met, .cmd .liftDisk,
                .cmd .rejectDisk]⟩
    | .timedOut =>
        ⟨false, false, true, false, evs ++ [.cmd .closeTray, .polled .trayClosedP .timedOut]⟩
    | .exnStop =>
        ⟨false, false, tray, false, evs ++ [.cmd .closeTray, .polled .trayClosedP .exnStop]⟩

/-- `_on_enter_clearing_open_tray` (`pure_state_machine.py:417-467`),
entered with the tray observed open: when a disc sits in the open tray,
lift it, close the tray, wait for it to close and reject-drop; any
exception among these three commands falls into the `cot_alt` recovery
branch; a poll failure calls `to_error`. -/
def clearing_open_tray (h1 : HWState) (e : InitEnv) : PhOut :=
  if h1.disk_in_open_tray then
    match e.liftB with
    | some _ => cot_alt h1.tray_out e [.cmd .liftDisk]
    | none =>
      if e.ctB then cot_alt h1.tray_out e [.cmd .liftDisk, .cmd .closeTray]
      else
        match e.pB with
        | .met =>
          match e.rdB with
          | some _ =>
              cot_alt false e
                [.cmd .liftDisk, .cmd .closeTray, .polled .trayClosedP .met, .cmd .rejectDisk]
          | none =>
              ⟨true, false, false, false,
                [.cmd .liftDisk, .cmd .closeTray, .polled .trayClosedP .met,
                 .cmd .rejectDisk]⟩
        | .timedOut =>
            ⟨false, false, true, false,
              [.cmd .liftDisk, .cmd .closeTray, .polled .trayClosedP .timedOut]⟩
        | .exnStop =>
            ⟨false, false, h1.tray_out, false,
              [.cmd .liftDisk, .cmd .closeTray, .polled .trayClosedP .exnStop]⟩
  else ⟨true, false, h1.tray_out, false, []⟩

/-- `_on_enter_closing_empty_tray` (`pure_state_machine.py:469-482`): close
the tray and wait for it to close; a failed wait calls `to_error`. -/
def closing_empty_tray (tray : Bool) (e : InitEnv) : PhOut :=
  if e.ctD then ⟨false, true, tray, false, [.cmd .closeTray]⟩
  else
    match e.pD with
    | .met => ⟨true, false, false, false, [.cmd .closeTray, .polled .trayClosedP .met]⟩
    | .timedOut =>
        ⟨false, false, true, false, [.cmd .closeTray, .polled .trayClosedP .timedOut]⟩
    | .exnStop =>
        ⟨false, false, tray, false, [.cmd .closeTray, .polled .trayClosedP .exnStop]⟩

/-- Inner `except Exception as e2` handler of `_on_enter_checking_closed_drive`
(`pure_state_machine.py:524-539`): `f2o = some f2` when a fault `f2` came
from the retried lift or the subsequent close/reject, `none` when the
close command itself raised a non-fault exception.  A message containing
"no disk" means the drive was empty: re-close the tray and wait, but
discard the wait's result and proceed; anything else calls `to_error`. -/
def ccd_e2 (tray : Bool) (e : InitEnv) (f2o : Option FaultK) (evs : List Evt) : PhOut :=
  match f2o with
  | some f2 =>
    if msgHasNoDisk f2 then
      if e.ctG then ⟨false, true, tray, false, evs ++ [.cmd .closeTray]⟩
      else
        match e.pH with
        | .met =>
            ⟨true, false, false, false,
              evs ++ [.cmd .closeTray, .polled .trayClosedP .met]⟩
        | .timedOut =>
            ⟨true, false, true, true,
              evs ++ [.cmd .closeTray, .polled .trayClosedP .timedOut]⟩
        | .exnStop =>
            ⟨true, false, tray, true,
              evs ++ [.cmd .closeTray, .polled .trayClosedP .exnStop]⟩
    else ⟨false, false, tray, false, evs⟩
  | none => ⟨false, false, tray, false, evs⟩

/-- Retry sequence of `_on_enter_checking_closed_drive` after the tray was
opened (`pure_state_machine.py:506-539`): lift, close, wait for the close,
reject-drop; exceptions from any of these fall into `ccd_e2`; a failed
close wait calls `to_error`. -/
def ccd_retry (tray : Bool) (e : InitEnv) (evs : List Evt) : PhOut :=
  match e.liftF with
  | some f2 => ccd_e2 tray e (some f2) (evs ++ [.cmd .liftDisk])
  | none =>
    if e.ctF then ccd_e2 tray e none (evs ++ [.cmd .liftDisk, .cmd .closeTray])
    else
      match e.pG with
      | .met =>
        match e.rdF with
        | some f2 =>
            ccd_e2 false e (some f2)
              (evs ++ [.cmd .liftDisk, .cmd .closeTray, .polled .trayClosedP .met,
                .cmd .rejectDisk])
        | none =>
            ⟨true, false, false, false,
              evs ++ [.cmd .liftDisk, .cmd .closeTray, .polled .trayClosedP .met,
                .cmd .rejectDisk]⟩
      | .timedOut =>
          ⟨false, false, true, false,
            evs ++ [.cmd .liftDisk, .cmd .closeTray, .polled .trayClosedP .timedOut]⟩
      | .exnStop =>
          ⟨false, false, tray, false,
            evs ++ [.cmd .liftDisk, .cmd .closeTray, .polled .trayClosedP .exnStop]⟩

/-- Outer `except` handler of `_on_enter_checking_closed_drive`
(`pure_state_machine.py:494-545`), entered with the fault raised by the
blind lift or by the reject after it: only a message containing
"opposite state" starts the open-retry recovery; any other fault is logged
as "no disk in closed drive" and the phase completes normally. -/
def ccd_except (tray : Bool) (e : InitEnv) (f : FaultK) (evs : List Evt) : PhOut :=
  if msgHasOppositeState f then
    if e.otF then ⟨false, true, tray, false, evs ++ [.cmd .openTray]⟩
    else
      match e.pF with
      | .met => ccd_retry true e (evs ++ [.cmd .openTray, .polled .trayOpenP .met])
      | .timedOut =>
          ⟨false, false, false, false,
            evs ++ [.cmd .openTray, .polled .trayOpenP .timedOut]⟩
      | .exnStop =>
          ⟨false, false, tray, false,
            evs ++ [.cmd .openTray, .polled .trayOpenP .exnStop]⟩
  else ⟨true, false, tray, false, evs⟩

/-- `_on_enter_checking_closed_drive` (`pure_state_machine.py:484-546`):
always attempt a blind lift; on success reject-drop; on an exception from
either command, dispatch on its message via `ccd_except`. -/
def checking_closed_drive (tray : Bool) (e : InitEnv) : PhOut :=
  match e.liftE with
  | some f => ccd_except tray e f [.cmd .liftDisk]
  | none =>
    match e.rdE with
    | some f => ccd_except tray e f [.cmd .liftDisk, .cmd .rejectDisk]
    | none => ⟨true, false, tray, false, [.cmd .liftDisk, .cmd .rejectDisk]⟩

/-- Final outcome of the `initialize` trigger. -/
structure InitOut where
  ws : WS
  raised : Bool
  trayOut : Bool
  reclose : Bool
  evs : List Evt
deriving DecidableEq, Repr

/-- Lift a completed `checking_closed_drive` phase into the final outcome:
phase completion chains through `initialization_complete` into `ready`
(`pure_state_machine.py:198-211`, 548-551); a stopped phase leaves the
machine in `error`. -/
def initFinish (p : PhOut) (evs : List Evt) : InitOut :=
  if p.ok then ⟨.ready, false, p.trayOut, p.reclose, evs ++ p.evs⟩
  else ⟨.error, p.raised, p.trayOut, p.reclose, evs ++ p.evs⟩

/-- The `initialize` trigger (`pure_state_machine.py:213-219`, callbacks
373-551).  `_check_hardware` reads the state and fires `hardware_checked`;
every later sub-state callback runs nested inside that call, so any
exception escaping a callback is caught by `_check_hardware`, which fires
`to_error` and re-raises (`pure_state_machine.py:382-385`).
`_on_enter_checking_tray_state` re-reads the hardware state (`gs1`) and
branches on `tray_out` (`pure_state_machine.py:406-415`). -/
def initRun (e : InitEnv) : InitOut :=
  match e.gs0 with
  | none => ⟨.error, true, false, false, []⟩
  | some h0 =>
    match clearing_lifted_disk h0 e with
    | ⟨false, r1, t1, _, evs1⟩ => ⟨.error, r1, t1, false, evs1⟩
    | ⟨true, _, t1, _, evs1⟩ =>
      match e.gs1 with
      | none => ⟨.error, true, t1, false, evs1⟩
      | some h1 =>
        if h1.tray_out then
          match clearing_open_tray h1 e with
          | ⟨false, r2, t2, _, evs2⟩ => ⟨.error, r2, t2, false, evs1 ++ evs2⟩
          | ⟨true, _, t2, _, evs2⟩ =>
            match closing_empty_tray t2 e with
            | ⟨false, r3, t3, _, evs3⟩ => ⟨.error, r3, t3, false, evs1 ++ evs2 ++ evs3⟩
            | ⟨true, _, t3, _, evs3⟩ =>
              initFinish (checking_closed_drive t3 e) (evs1 ++ evs2 ++ evs3)
        else initFinish (checking_closed_drive h1.tray_out e) evs1

namespace Flat

/-- The five flat states of `NimbieStateMachine` (`state_machine.py:26-32`). -/
inductive WS2 where
  | idle
  | loading
  | processing
  | unloading
  | error
deriving DecidableEq, Repr

/-- The transition triggers of the flat machine (`state_machine.py:87-137`);
`error_occurred` is its `toError` and `recover_evt` its `recover`. -/
inductive FEvt where
  | start_load
  | complete_load
  | start_unload
  | complete_unload
  | error_occurred
  | recover_evt
deriving DecidableEq, Repr

/-- Behaviour of the caller-supplied `process_fn` for one disc: return
`True` (accept), return `False` (reject), or raise. -/
inductive DiskRes where
  | acceptR
  | rejectR
  | raiseR
deriving DecidableEq, Repr

/-- Batch statistics dict of `process_batch` (`state_machine.py:564`). -/
structure Stats where
  total : Nat
  accepted : Nat
  rejected : Nat
deriving DecidableEq, Repr

/-- Output of `process_one_disk`: the returned pair
`(processed, accepted)`, the machine state and remaining queue length
afterwards, and the transitions fired. -/
structure OneOut where
  processed : Bool
  accepted : Bool
  ws : WS2
  queue : Nat
  events : List FEvt
deriving DecidableEq, Repr

/-- Transition trace of one fully successful load/process/unload cycle. -/
def goodCycleEvents : List FEvt :=
  [.start_load, .complete_load, .start_unload, .complete_unload]

/-- Transition trace of a cycle whose `process_fn` raised: the `except`
handler fires `error_occurred` then `recover` (`state_machine.py:543-548`). -/
def raiseCycleEvents : List FEvt :=
  [.start_load, .complete_load, .error_occurred, .recover_evt]

/-- `NimbieStateMachine.process_one_disk` (`state_machine.py:477-548`) over
a queue of `queue` discs.  `mechOk` abstracts the mechanical load/unload
steps: when false, the tray-open wait times out and `_open_tray` raises
`TimeoutError` before a disc is taken from the queue, which the `except`
handler turns into `error_occurred` + `recover` and the returned pair
`(False, False)`.  When the mechanics work, the disc is placed (consuming
one queue slot), `process_fn` runs with result `res`, and a raising
`process_fn` likewise ends in `error_occurred` + `recover` with
`(False, False)`; otherwise the disc is unloaded and accepted/rejected per
`res`, returning `(True, res)`. -/
def process_one_disk (s : WS2) (queue : Nat) (mechOk : Bool) (res : DiskRes) : OneOut :=
  if s ≠ .idle then ⟨false, false, s, queue, []⟩
  else if queue = 0 then ⟨false, false, s, queue, []⟩
  else if ¬ mechOk then
    ⟨false, false, .idle, queue, [.start_load, .error_occurred, .recover_evt]⟩
  else
    match res with
    | .acceptR => ⟨true, true, .idle, queue - 1, goodCycleEvents⟩
    | .rejectR => ⟨true, false, .idle, queue - 1, goodCycleEvents⟩
    | .raiseR => ⟨false, false, .idle, queue - 1, raiseCycleEvents⟩

/-- The count test at the top of the `process_batch` loop
(`state_machine.py:570`): Python `if count and stats["total"] >= count`,
so a count of `0` is falsy and never stops the loop. -/
def stopAtCount (count : Option Nat) (total : Nat) : Bool :=
  match count with
  | none => false
  | some c => decide (c ≠ 0 ∧ c ≤ total)

/-- Loop body of `process_batch` (`state_machine.py:568-583`), recursing on
the queue length (each processed disc consumes one queue slot).  `res i`
and `mech i` describe the i-th attempted cycle.  When the queue is empty
the next `process_one_disk` call returns `(False, _)` with no events, so
the loop exits with the accumulator unchanged, which the `q = 0` equation
returns directly. -/
def process_batch_go (res : Nat → DiskRes) (mech : Nat → Bool) (count : Option Nat) :
    Nat → Nat → Stats → List FEvt → Stats × List FEvt
  | 0, _, st, evs => (st, evs)
  | q + 1, i, st, evs =>
    if stopAtCount count st.total then (st, evs)
    else
      let o := process_one_disk .idle (q + 1) (mech i) (res i)
      if o.processed then
        process_batch_go res mech count q (i + 1)
          ⟨st.total + 1, st.accepted + (if o.accepted then 1 else 0),
            st.rejected + (if o.accepted then 0 else 1)⟩
          (evs ++ o.events)
      else (st, evs ++ o.events)

/-- `NimbieStateMachine.process_batch` (`state_machine.py:550-586`) started
from `idle` with `queue` discs available. -/
def process_batch (res : Nat → DiskRes) (mech : Nat → Bool) (count : Option Nat)
    (queue : Nat) : Stats × List FEvt :=
  process_batch_go res mech count queue 0 ⟨0, 0, 0⟩ []

/-- Number of accepted discs among `res i, res (i+1), ..., res (i+n-1)`. -/
def countAcceptsFrom (res : Nat → DiskRes) (i n : Nat) : Nat :=
  (List.range n).countP (fun j => res (i + j) = DiskRes.acceptR)

/-- Transition trace of `n` consecutive fully successful cycles. -/
def goodTrace (n : Nat) : List FEvt :=
  List.flatten (List.replicate n goodCycleEvents)

/-- Number of discs a batch over a queue of `q` discs processes when no
cycle fails, starting from a running total of `t`: all of them unless a
nonzero count caps the run (a count of `0` is falsy in the Python guard
and acts like no count at all). -/
def countLimit (count : Option Nat) (t q : Nat) : Nat :=
  match count with
  | none => q
  | some c => if c = 0 then q else min q (c - t)

end Flat

/-- An `initialize` environment in which every command succeeds, every poll
is met, both state reads return the all-false snapshot, and the blind lift
of `checking_closed_drive` fails with the no-disc-in-tray fault (the
expected situation for an empty drive). -/
def benignInitEnv : InitEnv :=
  { gs0 := some allFalseState, ctA := false, rdA := none, gs1 := some allFalseState,
    liftB := none, ctB := false, pB := .met, rdB := none, ctC := false, pC := .met,
    liftC := none, rdC := none, ctD := false, pD := .met,
    liftE := some .NoDiskInTrayError, rdE := none, otF := false, pF := .met,
    liftF := none, ctF := false, pG := .met, rdF := none, ctG := false, pH := .met }

/-- Environment exercising the discarded re-close poll: the blind lift
reports the tray in the wrong state, the retried lift after opening finds
no disc, and the final empty-tray close poll times out. -/
def recloseFailEnv : InitEnv :=
  { benignInitEnv with
    liftE := some .TrayInvalidStateError
    liftF := some .NoDiskInTrayError
    pH := .timedOut }

/-- Environment in which the blind lift of `checking_closed_drive` raises a
dropper fault (neither "opposite state" nor "no disk" in its message). -/
def dropperBlindLiftEnv : InitEnv :=
  { benignInitEnv with liftE := some .DropperError }

/-- A `load_disk` environment with a disc available, no raising command and
every poll met. -/
def benignLoadEnv : LoadEnv :=
  { availCond := true, otRaise := false, pOpen := .met, placeRes := none,
    pPlaced := .met, ctRaise := false, pClosed := .met }

/-- An unload environment with no raising command and every poll met. -/
def benignUnloadEnv : UnloadEnv :=
  { otRaise := false, pOpen := .met, liftRes := none, pLifted := .met,
    ctRaise := false, pClosed := .met, dropRes := none }

theorem poll_until_false_iff (cond : Nat → PollOutcome) :
    ∀ fuel i, poll_until cond fuel i = false ↔
      ∀ j, j < fuel → cond (i + j) ≠ PollOutcome.ok true := by
  intro fuel
  induction fuel with
  | zero => intro i; simp [poll_until]
  | succ n ih =>
    intro i
    constructor
    · intro h j hj
      cases hc : cond i with
      | ok b =>
        cases b with
        | true => simp only [poll_until, hc] at h; simp at h
        | false =>
          simp only [poll_until, hc] at h
          cases j with
          | zero => rw [Nat.add_zero, hc]; simp
          | succ k =>
            have hk := (ih (i + 1)).mp h k (by omega)
            rw [show i + (k + 1) = (i + 1) + k by omega]
            exact hk
      | exn =>
        simp only [poll_until, hc] at h
        cases j with
        | zero => rw [Nat.add_zero, hc]; simp
        | succ k =>
          have hk := (ih (i + 1)).mp h k (by omega)
          rw [show i + (k + 1) = (i + 1) + k by omega]
          exact hk
    · intro h
      cases hc : cond i with
      | ok b =>
        cases b with
        | true =>
          have h0 := h 0 (by omega)
          rw [Nat.add_zero, hc] at h0
          exact absurd rfl h0
        | false =>
          simp only [poll_until, hc]
          refine (ih (i + 1)).mpr ?_
          intro k hk
          have hx := h (k + 1) (by omega)
          rw [show i + (k + 1) = (i + 1) + k by omega] at hx
          exact hx
      | exn =>
        simp only [poll_until, hc]
        refine (ih (i + 1)).mpr ?_
        intro k hk
        have hx := h (k + 1) (by omega)
        rw [show i + (k + 1) = (i + 1) + k by omega] at hx
        exact hx

theorem wait_for_condition_true_iff (cond : Nat → PollOutcome) :
    ∀ fuel i, wait_for_condition cond fuel i = true ↔
      ∃ j, j < fuel ∧ cond (i + j) = PollOutcome.ok true ∧
        ∀ k, k < j → cond (i + k) = PollOutcome.ok false := by
  intro fuel
  induction fuel with
  | zero => intro i; simp [wait_for_condition]
  | succ n ih =>
    intro i
    cases hc : cond i with
    | ok b =>
      cases b with
      | true =>
        simp only [wait_for_condition, hc]
        constructor
        · intro _
          exact ⟨0, by omega, by rw [Nat.add_zero]; exact hc, by intro k hk; omega⟩
        · intro _; trivial
      | false =>
        simp only [wait_for_condition, hc]
        rw [ih (i + 1)]
        constructor
        · rintro ⟨j, hj, hjt, hjf⟩
          refine ⟨j + 1, by omega, ?_, ?_⟩
          · rw [show i + (j + 1) = (i + 1) + j by omega]; exact hjt
          · intro k hk
            cases k with
            | zero => rw [Nat.add_zero]; exact hc
            | succ k2 =>
              have hx := hjf k2 (by omega)
              rw [show i + (k2 + 1) = (i + 1) + k2 by omega]
              exact hx
        · rintro ⟨j, hj, hjt, hjf⟩
          cases j with
          | zero => rw [Nat.add_zero, hc] at hjt; simp at hjt
          | succ j2 =>
            refine ⟨j2, by omega, ?_, ?_⟩
            · rw [show (i + 1) + j2 = i + (j2 + 1) by omega]; exact hjt
            · intro k hk
              have hx := hjf (k + 1) (by omega)
              rw [show i + (k + 1) = (i + 1) + k by omega] at hx
              exact hx
    | exn =>
      simp only [wait_for_condition, hc]
      constructor
      · intro h; simp at h
      · rintro ⟨j, hj, hjt, hjf⟩
        cases j with
        | zero => rw [Nat.add_zero, hc] at hjt; simp at hjt
        | succ j2 =>
          have hx := hjf 0 (by omega)
          rw [Nat.add_zero, hc] at hx
          simp at hx

/-- C2 (amended): neither polling primitive propagates a predicate
exception, but they differ on continuation.  `_poll_until`
(`state_machine.py:658-695`) treats a raising predicate as not-yet-satisfied
and keeps polling, returning `false` exactly when the whole poll budget
elapses without the predicate returning true.  `_wait_for_condition`
(`pure_state_machine.py:692-721`) instead returns `false` immediately at
the first raising evaluation: it returns `true` exactly when some
evaluation returns true and every earlier evaluation returned false
(rather than raising). -/
theorem C2_polling_exception_semantics :
    (∀ (cond : Nat → PollOutcome) (fuel i : Nat),
        poll_until cond fuel i = false ↔
          ∀ j, j < fuel → cond (i + j) ≠ PollOutcome.ok true) ∧
    (∀ (cond : Nat → PollOutcome) (fuel i : Nat),
        wait_for_condition cond fuel i = true ↔
          ∃ j, j < fuel ∧ cond (i + j) = PollOutcome.ok true ∧
            ∀ k, k < j → cond (i + k) = PollOutcome.ok false) :=
  ⟨poll_until_false_iff, wait_for_condition_true_iff⟩

/-- C2 counterexample: with a predicate that raises on its first evaluation
and returns true on every later one, `_wait_for_condition` returns `false`
with four of its five evaluations unused, although the claim says a raising
predicate is treated as not-yet-satisfied so that polling continues and
`false` is returned only on timeout exhaustion; `_poll_until` on the same
predicate returns `true`. -/
theorem C2_counterexample_wait_aborts_on_exception :
    wait_for_condition (fun n => if n = 0 then PollOutcome.exn else .ok true) 5 0 = false ∧
    (fun n => if n = 0 then PollOutcome.exn else PollOutcome.ok true) 1 = .ok true ∧
    1 < 5 ∧
    poll_until (fun n => if n = 0 then PollOutcome.exn else .ok true) 5 0 = true := by
  decide

/-- Witness for C2 at a concrete predicate and budget. -/
theorem C2_polling_exception_semantics_witness :
    poll_until (fun _ => PollOutcome.ok false) 2 0 = false :=
  (C2_polling_exception_semantics.1 (fun _ => PollOutcome.ok false) 2 0).mpr
    (by intro j hj; simp)

theorem decode_code_info (c : List Char) (hc : c ∉ faultCodes) :
    (decode_code c).isInfo = true := by
  have h1 : ¬ c = "S12".toList := fun h => hc (by simp [faultCodes, h])
  have h2 : ¬ c = "S14".toList := fun h => hc (by simp [faultCodes, h])
  have h3 : ¬ c = "S10".toList := fun h => hc (by simp [faultCodes, h])
  have h4 : ¬ c = "S03".toList := fun h => hc (by simp [faultCodes, h])
  have h5 : ¬ c = "S00".toList := fun h => hc (by simp [faultCodes, h])
  have h6 : ¬ c = "E09".toList := fun h => hc (by simp [faultCodes, h])
  unfold decode_code
  rw [if_neg h1, if_neg h2, if_neg h3, if_neg h4, if_neg h5]
  by_cases hO : c = "O".toList
  · rw [if_pos hO]; rfl
  · rw [if_neg hO]
    by_cases h7 : c = "S07".toList
    · rw [if_pos h7]; rfl
    · rw [if_neg h7, if_neg h6]; rfl

/-- C3: `decode_statuscode` maps each of the six fault-table codes to
exactly its fault kind, and every other "AT+"-prefixed code (success codes
and unrecognized codes alike) to an informational string, never a fault. -/
theorem C3_decode_statuscode_fault_table :
    (decode_statuscode "AT+S12".toList = .err .DiskInTrayError ∧
     decode_statuscode "AT+S14".toList = .err .NoDiskError ∧
     decode_statuscode "AT+S10".toList = .err .TrayInvalidStateError ∧
     decode_statuscode "AT+S03".toList = .err .DropperError ∧
     decode_statuscode "AT+S00".toList = .err .NoDiskInTrayError ∧
     decode_statuscode "AT+E09".toList = .err .UnknownErrorE09) ∧
    ∀ c : List Char, c ∉ faultCodes →
      (decode_statuscode ("AT+".toList ++ c)).isInfo = true := by
  constructor
  · exact ⟨rfl, rfl, rfl, rfl, rfl, rfl⟩
  · intro c hc
    cases c with
    | nil => decide
    | cons a as =>
      have hlen : 3 < ("AT+".toList ++ (a :: as)).length := by
        rw [List.length_append]
        have h3 : ("AT+".toList).length = 3 := rfl
        rw [h3]
        simp
      have hdrop : ("AT+".toList ++ (a :: as)).drop 3 = a :: as := rfl
      unfold decode_statuscode
      rw [if_pos hlen, hdrop]
      exact decode_code_info _ hc

/-- Witness for C3 at the success code S07. -/
theorem C3_decode_statuscode_fault_table_witness :
    (decode_statuscode ("AT+".toList ++ "S07".toList)).isInfo = true :=
  C3_decode_statuscode_fault_table.2 "S07".toList (by decide)

/-- C5 (amended): from `error`, `recover` lands in `ready` whenever the
hardware re-probe succeeds; when the re-probe raises, the machine stays in
`error` and the exception propagates to the caller
(`pure_state_machine.py:561-572`).  `recover` invoked while already `ready`
is an ignored trigger: it returns `False`, changes nothing and raises
nothing. -/
theorem C5_recover_amended :
    (∀ h : HWState, recover_trigger .error (some h) = ⟨some true, .ready, []⟩) ∧
    recover_trigger .error none = ⟨none, .error, []⟩ ∧
    (∀ probe : Option HWState, recover_trigger .ready probe = ⟨some false, .ready, []⟩) :=
  ⟨fun _ => rfl, rfl, fun _ => rfl⟩

/-- C5 counterexample: when the recovery re-probe raises, `recover` from
`error` does not end in `ready` — the machine stays in `error` (and the
exception propagates), so `recover` does not always land in `Ready`. -/
theorem C5_counterexample_probe_failure :
    (recover_trigger .error none).ws = .error ∧ (recover_trigger .error none).ws ≠ .ready := by
  decide

/-- Witness for C5 with a successful probe. -/
theorem C5_recover_amended_witness :
    recover_trigger .error (some allFalseState) = ⟨some true, .ready, []⟩ :=
  C5_recover_amended.1 allFalseState

/-- C6: each guarded facade operation called outside its required workflow
state returns `False`, leaves the workflow state unchanged, and performs no
hardware command or poll at all (`pure_state_machine.py:745-801`). -/
theorem C6_guarded_ops_no_side_effects :
    (∀ (s : WS) (availPre : Bool) (e : LoadEnv), s ≠ .ready →
        load_next_disk s availPre e = ⟨some false, s, []⟩) ∧
    (∀ (s : WS) (e : UnloadEnv), s ≠ .processing →
        accept_current_disk s e = ⟨some false, s, []⟩) ∧
    (∀ (s : WS) (e : UnloadEnv), s ≠ .processing →
        reject_current_disk s e = ⟨some false, s, []⟩) := by
  refine ⟨?_, ?_, ?_⟩
  · intro s availPre e hs
    simp [load_next_disk, hs]
  · intro s e hs
    simp [accept_current_disk, hs]
  · intro s e hs
    simp [reject_current_disk, hs]

/-- Witness for C6: `accept_current_disk` from `ready`, `load_next_disk`
from `processing` and `reject_current_disk` from `error` all return
`False` with no state change and no hardware interaction. -/
theorem C6_guarded_ops_no_side_effects_witness :
    load_next_disk .processing true benignLoadEnv = ⟨some false, .processing, []⟩ ∧
    accept_current_disk .ready benignUnloadEnv = ⟨some false, .ready, []⟩ ∧
    reject_current_disk .error benignUnloadEnv = ⟨some false, .error, []⟩ :=
  ⟨C6_guarded_ops_no_side_effects.1 .processing true benignLoadEnv (by decide),
   C6_guarded_ops_no_side_effects.2.1 .ready benignUnloadEnv (by decide),
   C6_guarded_ops_no_side_effects.2.2 .error benignUnloadEnv (by decide)⟩

theorem findStateStr_mem :
    ∀ (ms : List Msg) (s : List Char), findStateStr ms = some s →
      ∃ m, m ∈ ms ∧ isBraceDelim m = true ∧ braceInside m = s := by
  intro ms
  induction ms with
  | nil => intro s h; simp [findStateStr] at h
  | cons m rest ih =>
    intro s h
    by_cases hb : isBraceDelim m = true
    · refine ⟨m, List.mem_cons_self m rest, hb, ?_⟩
      simp [findStateStr, hb] at h
      exact h
    · simp [findStateStr, hb] at h
      obtain ⟨m2, h1, h2, h3⟩ := ih s h
      exact ⟨m2, List.mem_cons_of_mem _ h1, h2, h3⟩

/-- C9: if the response contains a brace-delimited token and the first such
token has at least 7 characters inside, `get_state` builds the snapshot
from bit positions 1, 3, 4, 5 of that token (disk-available,
disk-in-open-tray, disk-lifted, tray-out); a response with no valid token
anywhere yields the all-false snapshot instead of failing. -/
theorem C9_get_state_token_parsing :
    (∀ (response : List Msg) (s : List Char),
        findStateStr response = some s → 7 ≤ s.length →
        get_state_parse response =
          { disk_available := s.getD STATE_BIT_DISK_AVAILABLE ' ' = '1',
            disk_in_open_tray := s.getD STATE_BIT_DISK_IN_OPEN_TRAY ' ' = '1',
            disk_lifted := s.getD STATE_BIT_DISK_LIFTED ' ' = '1',
            tray_out := s.getD STATE_BIT_TRAY_OUT ' ' = '1' }) ∧
    (∀ response : List Msg, (∀ m ∈ response, isValidStateToken m = false) →
        get_state_parse response = allFalseState) := by
  constructor
  · intro response s h hlen
    simp only [get_state_parse, h]
    rw [if_pos hlen]
  · intro response hval
    cases hf : findStateStr response with
    | none => simp [get_state_parse, hf]
    | some s =>
      have hlt : ¬ 7 ≤ s.length := by
        obtain ⟨m, hm, hb, hbi⟩ := findStateStr_mem response s hf
        have hv := hval m hm
        unfold isValidStateToken at hv
        rw [hb] at hv
        simp at hv
        rw [hbi] at hv
        omega
      simp only [get_state_parse, hf]
      rw [if_neg hlt]

/-- C4: from `ready` with a disc available (and no driver command raising),
`load_disk` performs exactly open tray, poll `tray_out`, place disc, poll
`disk_in_open_tray`, close tray, poll `not tray_out`, and ends in
`processing`; whichever poll fails first sends the machine to `error`
instead, with the later steps never performed. -/
theorem C4_load_sequence :
    ∀ e : LoadEnv, e.availCond = true → e.otRaise = false → e.placeRes = none →
      e.ctRaise = false →
      ((e.pOpen = .met → e.pPlaced = .met → e.pClosed = .met →
          load_disk_trigger .ready e =
            ⟨some true, .processing,
             [.cmd .openTray, .polled .trayOpenP .met, .cmd .placeDisk,
              .polled .diskPlacedP .met, .cmd .closeTray, .polled .trayClosedP .met]⟩) ∧
       (e.pOpen ≠ .met →
          load_disk_trigger .ready e =
            ⟨some true, .error, [.cmd .openTray, .polled .trayOpenP e.pOpen]⟩) ∧
       (e.pOpen = .met → e.pPlaced ≠ .met →
          load_disk_trigger .ready e =
            ⟨some true, .error,
             [.cmd .openTray, .polled .trayOpenP .met, .cmd .placeDisk,
              .polled .diskPlacedP e.pPlaced]⟩) ∧
       (e.pOpen = .met → e.pPlaced = .met → e.pClosed ≠ .met →
          load_disk_trigger .ready e =
            ⟨some true, .error,
             [.cmd .openTray, .polled .trayOpenP .met, .cmd .placeDisk,
              .polled .diskPlacedP .met, .cmd .closeTray,
              .polled .trayClosedP e.pClosed]⟩)) := by
  intro e h1 h2 h3 h4
  refine ⟨?_, ?_, ?_, ?_⟩
  · intro m1 m2 m3
    simp [load_disk_trigger, h1, h2, h3, h4, m1, m2, m3]
  · intro hne
    rcases hpo : e.pOpen with _ | _ | _
    · exact absurd hpo hne
    · simp [load_disk_trigger, h1, h2, hpo]
    · simp [load_disk_trigger, h1, h2, hpo]
  · intro hm hne
    rcases hpp : e.pPlaced with _ | _ | _
    · exact absurd hpp hne
    · simp [load_disk_trigger, h1, h2, h3, hm, hpp]
    · simp [load_disk_trigger, h1, h2, h3, hm, hpp]
  · intro hm1 hm2 hne
    rcases hpc : e.pClosed with _ | _ | _
    · exact absurd hpc hne
    · simp [load_disk_trigger, h1, h2, h3, h4, hm1, hm2, hpc]
    · simp [load_disk_trigger, h1, h2, h3, h4, hm1, hm2, hpc]

/-- Witness for C4: the fully successful load run. -/
theorem C4_load_sequence_witness :
    load_disk_trigger .ready benignLoadEnv =
      ⟨some true, .processing,
       [.cmd .openTray, .polled .trayOpenP .met, .cmd .placeDisk,
        .polled .diskPlacedP .met, .cmd .closeTray, .polled .trayClosedP .met]⟩ :=
  (C4_load_sequence benignLoadEnv rfl rfl rfl rfl).1 rfl rfl rfl

theorem msgHasOppositeState_values :
    msgHasOppositeState .TrayInvalidStateError = true ∧
    msgHasOppositeState .DiskInTrayError = false ∧
    msgHasOppositeState .NoDiskError = false ∧
    msgHasOppositeState .DropperError = false ∧
    msgHasOppositeState .NoDiskInTrayError = false ∧
    msgHasOppositeState .UnknownErrorE09 = false := by decide

theorem msgHasNoDisk_values :
    msgHasNoDisk .NoDiskError = true ∧
    msgHasNoDisk .NoDiskInTrayError = true ∧
    msgHasNoDisk .TrayInvalidStateError = false ∧
    msgHasNoDisk .DiskInTrayError = false ∧
    msgHasNoDisk .DropperError = false ∧
    msgHasNoDisk .UnknownErrorE09 = false := by decide

/-- C7 (amended): in `checking_closed_drive`, a tray-wrong-state fault from
the blind lift leads to open tray, retried lift, close tray, reject-drop
and a normal completion (the sequence goes on to `Ready`, no fault
surfaced); if the retried lift raises a fault whose message contains
"no disk", the machine just re-closes the empty tray and still completes;
a fault without "no disk" from the retried lift forces `to_error`.  (A
blind-lift fault other than tray-wrong-state does NOT force `error`: it is
treated as "no disk in closed drive" — see the counterexample.) -/
theorem C7_checking_closed_drive_amended :
    (∀ e : InitEnv, e.liftE = some .TrayInvalidStateError → e.otF = false →
       e.pF = .met → e.liftF = none → e.ctF = false → e.pG = .met → e.rdF = none →
       checking_closed_drive false e =
         ⟨true, false, false, false,
          [.cmd .liftDisk, .cmd .openTray, .polled .trayOpenP .met, .cmd .liftDisk,
           .cmd .closeTray, .polled .trayClosedP .met, .cmd .rejectDisk]⟩) ∧
    (∀ (e : InitEnv) (f2 : FaultK), e.liftE = some .TrayInvalidStateError →
       e.otF = false → e.pF = .met → e.liftF = some f2 → msgHasNoDisk f2 = true →
       e.ctG = false → e.pH = .met →
       checking_closed_drive false e =
         ⟨true, false, false, false,
          [.cmd .liftDisk, .cmd .openTray, .polled .trayOpenP .met, .cmd .liftDisk,
           .cmd .closeTray, .polled .trayClosedP .met]⟩) ∧
    (∀ (e : InitEnv) (f2 : FaultK), e.liftE = some .TrayInvalidStateError →
       e.otF = false → e.pF = .met → e.liftF = some f2 → msgHasNoDisk f2 = false →
       checking_closed_drive false e =
         ⟨false, false, true, false,
          [.cmd .liftDisk, .cmd .openTray, .polled .trayOpenP .met, .cmd .liftDisk]⟩) := by
  have hopp := msgHasOppositeState_values.1
  refine ⟨?_, ?_, ?_⟩
  · intro e hle hot hpf hlf hcf hpg hrf
    simp [checking_closed_drive, ccd_except, ccd_retry, hle, hot, hpf, hlf, hcf,
      hpg, hrf, hopp]
  · intro e f2 hle hot hpf hlf hnd hcg hph
    simp [checking_closed_drive, ccd_except, ccd_retry, ccd_e2, hle, hot, hpf, hlf,
      hnd, hcg, hph, hopp]
  · intro e f2 hle hot hpf hlf hnd
    simp [checking_closed_drive, ccd_except, ccd_retry, ccd_e2, hle, hot, hpf, hlf,
      hnd, hopp]

/-- C7 counterexample: the claim says any fault other than tray-wrong-state
(and the retried lift's no-disc fault) during this step forces a transition
to `Error`, but a dropper fault raised by the blind lift is treated as
"no disk in closed drive" and initialization completes in `ready`. -/
theorem C7_counterexample_other_fault_reaches_ready :
    (initRun dropperBlindLiftEnv).ws = .ready ∧
    (initRun dropperBlindLiftEnv).ws ≠ .error := by decide

/-- Witness for C7 at concrete environments for all three branches. -/
theorem C7_checking_closed_drive_amended_witness :
    checking_closed_drive false { benignInitEnv with liftE := some .TrayInvalidStateError } =
      ⟨true, false, false, false,
       [.cmd .liftDisk, .cmd .openTray, .polled .trayOpenP .met, .cmd .liftDisk,
        .cmd .closeTray, .polled .trayClosedP .met, .cmd .rejectDisk]⟩ ∧
    checking_closed_drive false
        { benignInitEnv with liftE := some .TrayInvalidStateError, liftF := some .NoDiskInTrayError } =
      ⟨true, false, false, false,
       [.cmd .liftDisk, .cmd .openTray, .polled .trayOpenP .met, .cmd .liftDisk,
        .cmd .closeTray, .polled .trayClosedP .met]⟩ ∧
    checking_closed_drive false
        { benignInitEnv with liftE := some .TrayInvalidStateError, liftF := some .DropperError } =
      ⟨false, false, true, false,
       [.cmd .liftDisk, .cmd .openTray, .polled .trayOpenP .met, .cmd .liftDisk]⟩ :=
  ⟨C7_checking_closed_drive_amended.1 _ rfl rfl rfl rfl rfl rfl rfl,
   C7_checking_closed_drive_amended.2.1 _ .NoDiskInTrayError rfl rfl rfl rfl
     (by decide) rfl rfl,
   C7_checking_closed_drive_amended.2.2 _ .DropperError rfl rfl rfl rfl (by decide)⟩

theorem ccd_e2_ok_tray (tray : Bool) (e : InitEnv) (f2o : Option FaultK) (evs : List Evt) :
    (ccd_e2 tray e f2o evs).ok = true →
    (ccd_e2 tray e f2o evs).trayOut = false ∨ (ccd_e2 tray e f2o evs).reclose = true := by
  unfold ccd_e2
  rcases f2o with _ | f2
  · intro h; simp at h
  · by_cases hnd : msgHasNoDisk f2 = true
    · by_cases hg : e.ctG = true
      · simp [hnd, hg]
      · cases hph : e.pH <;> simp [hnd, hg, hph]
    · simp [hnd]

theorem ccd_retry_ok_tray (tray : Bool) (e : InitEnv) (evs : List Evt) :
    (ccd_retry tray e evs).ok = true →
    (ccd_retry tray e evs).trayOut = false ∨ (ccd_retry tray e evs).reclose = true := by
  unfold ccd_retry
  rcases hlf : e.liftF with _ | f2
  · by_cases hcf : e.ctF = true
    · simp only [hcf, if_true]
      exact ccd_e2_ok_tray tray e none _
    · simp only [hcf, if_false]
      cases hpg : e.pG
      · rcases hrf : e.rdF with _ | f2
        · intro _; left; rfl
        · exact ccd_e2_ok_tray false e (some f2) _
      · intro h; simp at h
      · intro h; simp at h
  · exact ccd_e2_ok_tray tray e (some f2) _

theorem ccd_except_ok_tray (e : InitEnv) (f : FaultK) (evs : List Evt) :
    (ccd_except false e f evs).ok = true →
    (ccd_except false e f evs).trayOut = false ∨ (ccd_except false e f evs).reclose = true := by
  unfold ccd_except
  by_cases hopp : msgHasOppositeState f = true
  · by_cases hot : e.otF = true
    · simp [hopp, hot]
    · simp only [hopp, hot, if_true, if_false]
      cases hpf : e.pF
      · exact ccd_retry_ok_tray true e _
      · intro h; simp at h
      · intro h; simp at h
  · intro _
    simp [hopp]

theorem checking_closed_drive_ok_tray (e : InitEnv) :
    (checking_closed_drive false e).ok = true →
    (checking_closed_drive false e).trayOut = false ∨
      (checking_closed_drive false e).reclose = true := by
  unfold checking_closed_drive
  rcases hle : e.liftE with _ | f
  · rcases hre : e.rdE with _ | f
    · intro _; left; rfl
    · exact ccd_except_ok_tray e f _
  · exact ccd_except_ok_tray e f _

theorem closing_empty_tray_ok_tray (tray : Bool) (e : InitEnv) :
    (closing_empty_tray tray e).ok = true → (closing_empty_tray tray e).trayOut = false := by
  unfold closing_empty_tray
  by_cases hd : e.ctD = true
  · simp [hd]
  · cases hpd : e.pD <;> simp [hd, hpd]

theorem closing_empty_tray_eq_ok (tray : Bool) (e : InitEnv) (p : PhOut)
    (h : closing_empty_tray tray e = p) (hok : p.ok = true) : p.trayOut = false := by
  subst h
  exact closing_empty_tray_ok_tray tray e hok

theorem initFinish_ccd_props (e : InitEnv) (evs : List Evt) :
    ((initFinish (checking_closed_drive false e) evs).ws = .ready ∨
     (initFinish (checking_closed_drive false e) evs).ws = .error) ∧
    ((initFinish (checking_closed_drive false e) evs).ws = .ready →
      ((initFinish (checking_closed_drive false e) evs).trayOut = false ∨
       (initFinish (checking_closed_drive false e) evs).reclose = true)) := by
  have hccd := checking_closed_drive_ok_tray e
  unfold initFinish
  by_cases hok : (checking_closed_drive false e).ok = true
  · rw [if_pos hok]
    exact ⟨Or.inl rfl, fun _ => hccd hok⟩
  · rw [if_neg hok]
    exact ⟨Or.inr rfl, fun h => absurd h (by simp)⟩

/-- C1 (amended): for every startup hardware snapshot and every behaviour
of the hardware during initialization, the `initialize` sequence ends with
the workflow state equal to `ready` or `error` — it is never left in an
initializing sub-state.  On runs that end in `ready` the tray was last
observed closed, EXCEPT on the path where a disc was detected in the
closed drive, the tray was opened, the retried lift found no disc, and the
final re-close poll (whose result the code discards) failed — there the
machine reaches `ready` with the tray still observed open, which the
`reclose` flag records. -/
theorem C1_initialization_ready_or_error :
    ∀ e : InitEnv,
      ((initRun e).ws = .ready ∨ (initRun e).ws = .error) ∧
      ((initRun e).ws = .ready →
        ((initRun e).trayOut = false ∨ (initRun e).reclose = true)) := by
  intro e
  unfold initRun
  split
  · exact ⟨Or.inr rfl, fun h => absurd h (by simp)⟩
  · split
    · exact ⟨Or.inr rfl, fun h => absurd h (by simp)⟩
    · split
      · exact ⟨Or.inr rfl, fun h => absurd h (by simp)⟩
      · split
        · split
          · exact ⟨Or.inr rfl, fun h => absurd h (by simp)⟩
          · split
            · exact ⟨Or.inr rfl, fun h => absurd h (by simp)⟩
            · rename_i t3 rc3 evs3 heq3
              have ht3 : t3 = false :=
                closing_empty_tray_eq_ok _ e _ heq3 rfl
              rw [ht3]
              exact initFinish_ccd_props e _
        · rename_i h1 heqg hne
          have ht : h1.tray_out = false := by
            cases hv : h1.tray_out
            · rfl
            · exact absurd hv hne
          rw [ht]
          exact initFinish_ccd_props e _

/-- C1 counterexample: a run in which the blind lift reports
tray-wrong-state, the retried lift after opening finds no disc, and the
discarded re-close poll times out, ends in `ready` with the tray still
observed open — refuting "on every run that ends in Ready the tray is
closed". -/
theorem C1_counterexample_tray_open_on_ready :
    (initRun recloseFailEnv).ws = .ready ∧ (initRun recloseFailEnv).trayOut = true := by
  decide

/-- Witness for C1 at the benign environment. -/
theorem C1_initialization_ready_or_error_witness :
    (initRun benignInitEnv).trayOut = false ∨ (initRun benignInitEnv).reclose = true :=
  (C1_initialization_ready_or_error benignInitEnv).2 (by decide)

/-- Witness for C9: a valid token is decoded bitwise; a response with only
raw frames yields the all-false snapshot. -/
theorem C9_get_state_token_parsing_witness :
    get_state_parse [Msg.strMsg ([braceL] ++ "0101010".toList ++ [braceR])] =
      { disk_available := true, disk_in_open_tray := true,
        disk_lifted := false, tray_out := true } ∧
    get_state_parse [Msg.rawMsg [0, 1]] = allFalseState := by
  constructor
  · have h := C9_get_state_token_parsing.1
      [Msg.strMsg ([braceL] ++ "0101010".toList ++ [braceR])]
      ("0101010".toList) (by decide) (by decide)
    rw [h]
    decide
  · exact C9_get_state_token_parsing.2 [Msg.rawMsg [0, 1]] (by decide)

namespace Flat

theorem countAcceptsFrom_succ (res : Nat → DiskRes) (i n : Nat) :
    countAcceptsFrom res i (n + 1) =
      (if res i = DiskRes.acceptR then 1 else 0) + countAcceptsFrom res (i + 1) n := by
  unfold countAcceptsFrom
  rw [List.range_succ_eq_map, List.countP_cons, List.countP_map]
  have hfun : ((fun j => decide (res (i + j) = DiskRes.acceptR)) ∘ Nat.succ) =
      fun j => decide (res (i + 1 + j) = DiskRes.acceptR) := by
    funext j
    have hx : i + Nat.succ j = i + 1 + j := by omega
    simp [Function.comp, hx]
  rw [hfun]
  simp [Nat.add_comm]

theorem countAcceptsFrom_le (res : Nat → DiskRes) (i n : Nat) :
    countAcceptsFrom res i n ≤ n := by
  unfold countAcceptsFrom
  calc (List.range n).countP (fun j => decide (res (i + j) = DiskRes.acceptR)) ≤
      (List.range n).length := List.countP_le_length _
    _ = n := List.length_range n

theorem goodTrace_succ (n : Nat) :
    goodTrace (n + 1) = goodCycleEvents ++ goodTrace n := by
  unfold goodTrace
  rw [List.replicate_succ, List.flatten_cons]

theorem countLimit_eq_zero (count : Option Nat) (t q : Nat)
    (h : stopAtCount count t = true) : countLimit count t q = 0 := by
  unfold stopAtCount at h
  cases count with
  | none => simp at h
  | some c =>
    simp at h
    have hshow : countLimit (some c) t q = if c = 0 then q else min q (c - t) := rfl
    rw [hshow, if_neg h.1]
    have hz : c - t = 0 := by omega
    simp [hz]

theorem countLimit_succ (count : Option Nat) (t q : Nat)
    (h : stopAtCount count t = false) :
    countLimit count t (q + 1) = countLimit count (t + 1) q + 1 := by
  unfold stopAtCount at h
  cases count with
  | none => rfl
  | some c =>
    have h1 : countLimit (some c) t (q + 1) =
        if c = 0 then q + 1 else min (q + 1) (c - t) := rfl
    have h2 : countLimit (some c) (t + 1) q =
        if c = 0 then q else min q (c - (t + 1)) := rfl
    rw [h1, h2]
    by_cases hc : c = 0
    · simp [hc]
    · simp [hc] at h
      rw [if_neg hc, if_neg hc]
      omega

theorem process_batch_go_step_acc (res : Nat → DiskRes) (mech : Nat → Bool)
    (count : Option Nat) (q i : Nat) (st : Stats) (evs : List FEvt)
    (hs : stopAtCount count st.total = false) (hmech : mech i = true)
    (hres : res i = DiskRes.acceptR) :
    process_batch_go res mech count (q + 1) i st evs =
      process_batch_go res mech count q (i + 1)
        ⟨st.total + 1, st.accepted + 1, st.rejected⟩ (evs ++ goodCycleEvents) := by
  simp only [process_batch_go]
  rw [if_neg (by simp [hs]), hmech, hres]
  simp [process_one_disk]

theorem process_batch_go_step_rej (res : Nat → DiskRes) (mech : Nat → Bool)
    (count : Option Nat) (q i : Nat) (st : Stats) (evs : List FEvt)
    (hs : stopAtCount count st.total = false) (hmech : mech i = true)
    (hres : res i = DiskRes.rejectR) :
    process_batch_go res mech count (q + 1) i st evs =
      process_batch_go res mech count q (i + 1)
        ⟨st.total + 1, st.accepted, st.rejected + 1⟩ (evs ++ goodCycleEvents) := by
  simp only [process_batch_go]
  rw [if_neg (by simp [hs]), hmech, hres]
  simp [process_one_disk]

theorem process_batch_go_step_raise (res : Nat → DiskRes) (mech : Nat → Bool)
    (count : Option Nat) (q i : Nat) (st : Stats) (evs : List FEvt)
    (hs : stopAtCount count st.total = false) (hmech : mech i = true)
    (hres : res i = DiskRes.raiseR) :
    process_batch_go res mech count (q + 1) i st evs = (st, evs ++ raiseCycleEvents) := by
  simp only [process_batch_go]
  rw [if_neg (by simp [hs]), hmech, hres]
  simp [process_one_disk, raiseCycleEvents]

theorem process_batch_go_spec (res : Nat → DiskRes) (mech : Nat → Bool)
    (count : Option Nat) (hm : ∀ j, mech j = true) (hr : ∀ j, res j ≠ DiskRes.raiseR) :
    ∀ q i st evs,
      process_batch_go res mech count q i st evs =
        (⟨st.total + countLimit count st.total q,
          st.accepted + countAcceptsFrom res i (countLimit count st.total q),
          st.rejected +
            (countLimit count st.total q -
              countAcceptsFrom res i (countLimit count st.total q))⟩,
         evs ++ goodTrace (countLimit count st.total q)) := by
  intro q
  induction q with
  | zero =>
    intro i st evs
    have h0 : countLimit count st.total 0 = 0 := by
      unfold countLimit
      cases count with
      | none => rfl
      | some c => split <;> simp
    rw [h0]
    simp [process_batch_go, countAcceptsFrom, goodTrace]
  | succ q ih =>
    intro i st evs
    by_cases hstop : stopAtCount count st.total = true
    · have h0 : countLimit count st.total (q + 1) = 0 := countLimit_eq_zero _ _ _ hstop
      rw [h0]
      simp only [process_batch_go]
      rw [if_pos hstop]
      simp [countAcceptsFrom, goodTrace]
    · have hs : stopAtCount count st.total = false := by
        cases hx : stopAtCount count st.total
        · rfl
        · exact absurd hx hstop
      rw [countLimit_succ count st.total q hs]
      rcases hres : res i with _ | _ | _
      · rw [process_batch_go_step_acc res mech count q i st evs hs (hm i) hres,
          ih (i + 1)]
        rw [countAcceptsFrom_succ, hres, if_pos rfl, goodTrace_succ]
        refine congrArg₂ Prod.mk ?_ ?_
        · simp only [Stats.mk.injEq]
          refine ⟨?_, ?_, ?_⟩ <;> omega
        · rw [List.append_assoc]
      · rw [process_batch_go_step_rej res mech count q i st evs hs (hm i) hres,
          ih (i + 1)]
        rw [countAcceptsFrom_succ, hres, if_neg (by simp), goodTrace_succ]
        have hle := countAcceptsFrom_le res (i + 1) (countLimit count (st.total + 1) q)
        refine congrArg₂ Prod.mk ?_ ?_
        · simp only [Stats.mk.injEq]
          refine ⟨?_, ?_, ?_⟩ <;> omega
        · rw [List.append_assoc]
      · exact absurd hres (hr i)

/-- C8 (amended): with working mechanics and a `process_fn` that never
raises, `process_batch` runs load → `process_fn` → accept/reject cycles,
stopping when the queue is exhausted or when a NONZERO count is reached
(`countLimit`); a count of `0`, like `None`, never stops the loop because
Python `if count and ...` treats `0` as falsy.  Discs whose `process_fn`
returns true are accepted and counted as accepted, the rest rejected and
counted as rejected.  A cycle whose `process_fn` raises fires exactly one
`error_occurred` followed by one `recover`, returns `(False, False)`, and
that disc is counted in no total. -/
theorem C8_process_batch_amended :
    (∀ (res : Nat → DiskRes) (mech : Nat → Bool) (count : Option Nat) (queue : Nat),
        (∀ j, mech j = true) → (∀ j, res j ≠ DiskRes.raiseR) →
        process_batch res mech count queue =
          (⟨countLimit count 0 queue,
            countAcceptsFrom res 0 (countLimit count 0 queue),
            countLimit count 0 queue -
              countAcceptsFrom res 0 (countLimit count 0 queue)⟩,
           goodTrace (countLimit count 0 queue))) ∧
    (∀ queue : Nat,
        process_one_disk .idle (queue + 1) true DiskRes.raiseR =
          ⟨false, false, .idle, queue, raiseCycleEvents⟩) := by
  constructor
  · intro res mech count queue hm hr
    unfold process_batch
    rw [process_batch_go_spec res mech count hm hr queue 0 ⟨0, 0, 0⟩ []]
    simp
  · intro queue
    simp [process_one_disk, raiseCycleEvents]

/-- C8 counterexample: with `count = 0` and one disc in the queue, the
claim says the batch stops once the number of processed discs reaches the
given count (zero), but the code processes the disc: `total` is `1`. -/
theorem C8_counterexample_count_zero :
    (process_batch (fun _ => DiskRes.acceptR) (fun _ => true) (some 0) 1).1.total = 1 := by
  decide

/-- Witness for C8: five discs, count two, all accepted. -/
theorem C8_process_batch_amended_witness :
    process_batch (fun _ => DiskRes.acceptR) (fun _ => true) (some 2) 5 =
      (⟨2, 2, 0⟩, goodTrace 2) := by
  have h := C8_process_batch_amended.1 (fun _ => DiskRes.acceptR) (fun _ => true)
    (some 2) 5 (fun _ => rfl) (fun _ => by simp)
  exact h.trans (by decide)

theorem process_batch_go_raise (res : Nat → DiskRes) (mech : Nat → Bool)
    (hm : ∀ j, mech j = true) :
    ∀ k q i st evs, (∀ j, j < k → res (i + j) ≠ DiskRes.raiseR) →
      res (i + k) = DiskRes.raiseR → k < q →
      process_batch_go res mech none q i st evs =
        (⟨st.total + k, st.accepted + countAcceptsFrom res i k,
          st.rejected + (k - countAcceptsFrom res i k)⟩,
         evs ++ (goodTrace k ++ raiseCycleEvents)) := by
  intro k
  induction k with
  | zero =>
    intro q i st evs hlt hraise hq
    cases q with
    | zero => omega
    | succ q2 =>
      rw [Nat.add_zero] at hraise
      rw [process_batch_go_step_raise res mech none q2 i st evs (by simp [stopAtCount])
        (hm i) hraise]
      simp [countAcceptsFrom, goodTrace]
  | succ k ih =>
    intro q i st evs hlt hraise hq
    cases q with
    | zero => omega
    | succ q2 =>
      have h0 : res i ≠ DiskRes.raiseR := by
        have hx := hlt 0 (by omega)
        rw [Nat.add_zero] at hx
        exact hx
      have hlt2 : ∀ j, j < k → res (i + 1 + j) ≠ DiskRes.raiseR := by
        intro j hj
        have hx := hlt (j + 1) (by omega)
        rw [show i + (j + 1) = i + 1 + j by omega] at hx
        exact hx
      have hraise2 : res (i + 1 + k) = DiskRes.raiseR := by
        rw [show i + 1 + k = i + (k + 1) by omega]
        exact hraise
      rcases hres : res i with _ | _ | _
      · rw [process_batch_go_step_acc res mech none q2 i st evs (by simp [stopAtCount])
          (hm i) hres]
        rw [ih q2 (i + 1) _ _ hlt2 hraise2 (by omega)]
        rw [countAcceptsFrom_succ, hres, if_pos rfl, goodTrace_succ]
        refine congrArg₂ Prod.mk ?_ ?_
        · simp only [Stats.mk.injEq]
          refine ⟨?_, ?_, ?_⟩ <;> omega
        · simp [List.append_assoc]
      · rw [process_batch_go_step_rej res mech none q2 i st evs (by simp [stopAtCount])
          (hm i) hres]
        rw [ih q2 (i + 1) _ _ hlt2 hraise2 (by omega)]
        rw [countAcceptsFrom_succ, hres, if_neg (by simp), goodTrace_succ]
        have hle := countAcceptsFrom_le res (i + 1) k
        refine congrArg₂ Prod.mk ?_ ?_
        · simp only [Stats.mk.injEq]
          refine ⟨?_, ?_, ?_⟩ <;> omega
        · simp [List.append_assoc]
      · exact absurd hres h0

/-- C10: when `process_fn` first raises on the k-th disc, the whole batch
stops right after that disc's single `error_occurred` + `recover`: the
totals cover only the k discs processed before it, and no further disc is
loaded even though the queue still holds discs (`k < queue`), because the
`(False, False)` return of `process_one_disk` is indistinguishable from an
empty queue in the loop's stopping test. -/
theorem C10_batch_stops_after_process_fn_exception :
    ∀ (res : Nat → DiskRes) (mech : Nat → Bool) (queue k : Nat),
      (∀ j, mech j = true) → (∀ j, j < k → res j ≠ DiskRes.raiseR) →
      res k = DiskRes.raiseR → k < queue →
      process_batch res mech none queue =
        (⟨k, countAcceptsFrom res 0 k, k - countAcceptsFrom res 0 k⟩,
         goodTrace k ++ raiseCycleEvents) := by
  intro res mech queue k hm hlt hraise hq
  unfold process_batch
  rw [process_batch_go_raise res mech hm k queue 0 ⟨0, 0, 0⟩ []
    (by intro j hj; rw [Nat.zero_add]; exact hlt j hj)
    (by rw [Nat.zero_add]; exact hraise) hq]
  simp

/-- Witness for C10: three discs in the queue, the second raises, so only
the first is processed and the batch ends with one error/recover pair. -/
theorem C10_batch_stops_after_process_fn_exception_witness :
    process_batch (fun i => if i = 1 then DiskRes.raiseR else DiskRes.acceptR)
        (fun _ => true) none 3 =
      (⟨1, 1, 0⟩, goodTrace 1 ++ raiseCycleEvents) := by
  refine (C10_batch_stops_after_process_fn_exception
    (fun i => if i = 1 then DiskRes.raiseR else DiskRes.acceptR)
    (fun _ => true) 3 1 (fun _ => rfl) ?_ (by decide) (by omega)).trans (by decide)
  intro j hj
  have hj0 : j = 0 := by omega
  rw [hj0]
  decide

end Flat

end Nimbie
